import Mathlib

/-
Verification of the simple-lamport library (src/index.js, src/sha256.js, the
hmac module) against its natural-language specification.

The JavaScript class SimpleLamport is shallowly embedded as pure Lean
functions.  Dynamic JavaScript values are modeled by the inductive type JSVal;
a thrown exception is modeled by the error branch of Except String.  External
collaborators (the hash.js sha256 digest, Node Buffer byte/text encodings,
JSON.stringify / JSON.parse, crypto HMAC, the random byte source) are
parameters, collected in the structure Ext, exactly as the specification
classifies them as external interfaces.  Per-instance configuration set up by
the constructor (lines 7-19 of src/index.js) is the structure Settings, with
the constructor defaults as default field values.
-/

set_option maxRecDepth 10000

namespace SimpleLamport

/-- Dynamic JavaScript values, as far as the library manipulates them:
strings, numbers, booleans, Buffers (byte sequences), arrays, null and
undefined. -/
inductive JSVal where
  | vstr : String → JSVal
  | vnum : Int → JSVal
  | vbool : Bool → JSVal
  | vbuf : List Nat → JSVal
  | varr : List JSVal → JSVal
  | vnull : JSVal
  | vundefined : JSVal

/-- Property access v[i] with a numeric index.  Array access out of bounds
yields undefined; access on null or undefined throws a TypeError; strings
index to one-character strings; Buffers index to byte values; numbers and
booleans box to objects with no numeric properties, yielding undefined. -/
def JSVal.idx : JSVal → Nat → Except String JSVal
  | .vnull, _ => .error "TypeError"
  | .vundefined, _ => .error "TypeError"
  | .varr xs, i => .ok (xs.getD i .vundefined)
  | .vstr s, i =>
      .ok (match s.toList.get? i with
        | some c => .vstr (String.mk [c])
        | none => .vundefined)
  | .vbuf bs, i =>
      .ok (match bs.get? i with
        | some byte => .vnum (Int.ofNat byte)
        | none => .vundefined)
  | .vnum _, _ => .ok .vundefined
  | .vbool _, _ => .ok .vundefined

/-- Strict equality s === v between a string and an arbitrary value: true
exactly for an equal string (as used on line 147 of src/index.js, where the
left operand is always a string). -/
def strictEqStr (s : String) : JSVal → Bool
  | .vstr t => s == t
  | _ => false

/-- A user-supplied hash function (the hashFunction constructor option):
per the interface contract it consumes a message and an optional output
encoding name and returns an encoded digest string. -/
abbrev HashFunction := JSVal → Option String → String

/-- External collaborators, abstracted: the hash.js sha256 hex digest, the
Node Buffer byte/text codecs (indexed by encoding name), the JSON builtins
and the crypto HMAC primitive.  These are outside the repository; the
specification fixes them only at their interface boundary. -/
structure Ext where
  /-- hash.sha256().update(message).digest applied to a value, as a hex
  string (src/index.js line 152). -/
  sha256hex : JSVal → String
  /-- buffer.toString(encodingName) : render bytes as text. -/
  encTo : String → List Nat → String
  /-- Buffer.from(string, encodingName) : decode text to bytes. -/
  encFrom : String → String → List Nat
  /-- JSON.stringify on a structured value. -/
  jsonStringify : JSVal → String
  /-- JSON.parse on an arbitrary value; throws a SyntaxError on
  unparseable input, modeled as the error branch. -/
  jsonParseVal : JSVal → Except String JSVal
  /-- crypto.createHmac with sha256, applied to a key (bytes), a message
  and an output encoding name (the hmac module, src/index.js lines 237-241). -/
  hmacSha256 : List Nat → JSVal → String → String

/-- Per-instance configuration fixed by the constructor
(src/index.js lines 7-19), with the constructor defaults. -/
structure Settings where
  keyFormat : String := "base64"
  signatureFormat : String := "base64"
  hashEncoding : String := "base64"
  hashElementByteSize : Nat := 32
  seedEncoding : String := "hex"
  seedByteSize : Nat := 64
  /-- options.hashFunction when provided; none selects the built-in sha256
  method (lines 15-19). -/
  hashFn : Option HashFunction := none

/-- KEY_SIG_ENTRY_COUNT (src/index.js line 4). -/
def KEY_SIG_ENTRY_COUNT : Nat := 256

/-- Method sha256 (src/index.js lines 151-157): hex digest via hash.js,
returned as hex when that encoding is requested, otherwise transcoded with
Buffer.from(shasum, hex).toString(encoding || base64). -/
def sha256 (E : Ext) (message : JSVal) (encoding : Option String) : String :=
  let shasum := E.sha256hex message
  if encoding = some "hex" then shasum
  else E.encTo (encoding.getD "base64") (E.encFrom "hex" shasum)

/-- Field this.hash: the configured hashFunction when present, otherwise the
built-in sha256 method (src/index.js lines 15-19). -/
def Settings.hashF (S : Settings) (E : Ext) (v : JSVal) (enc : Option String) : String :=
  match S.hashFn with
  | some f => f v enc
  | none => sha256 E v enc

/-- Call s.toString(encoding) on a string value: String.prototype.toString
ignores its argument and returns the string unchanged, so this is the
identity on its first argument (relevant to line 170 of src/index.js). -/
def jsStringToString (s : String) (_encoding : String) : String := s

/-- The hmac module (src/index.js lines 237-241):
crypto.createHmac(sha256, Buffer.from(secret, secretEncoding))
  .update(message).digest(outputEncoding || base64). -/
def hmacModule (E : Ext) (secret : String) (secretEncoding : String)
    (message : JSVal) (outputEncoding : Option String) : String :=
  E.hmacSha256 (E.encFrom secretEncoding secret) message (outputEncoding.getD "base64")

/-- Method generateRandomArrayFromSeed (src/index.js lines 167-173): for each
i below length, push this.hash(seed + "-" + i).toString(this.hashEncoding).
The hash is called with no output-encoding argument, and toString on the
resulting string ignores its argument. -/
def generateRandomArrayFromSeed (S : Settings) (E : Ext) (length : Nat) (seed : String) :
    List String :=
  (List.range length).map (fun i =>
    jsStringToString (S.hashF E (.vstr (seed ++ "-" ++ toString i)) none) S.hashEncoding)

/-- Method generateRandomArray (src/index.js lines 159-165).  The external
random source randomBytes is modeled as a stream rand of byte lists indexed
by call number; start is the index of the first call made by this loop. -/
def generateRandomArray (S : Settings) (E : Ext) (rand : Nat → Nat → List Nat)
    (start length elementBytes : Nat) : List String :=
  (List.range length).map (fun i => E.encTo S.hashEncoding (rand (start + i) elementBytes))

/-- Embed a structured signature (a list of block strings) as a JSVal. -/
def sigVal (sg : List String) : JSVal := .varr (sg.map .vstr)

/-- Embed a structured key (two sides of block strings) as a JSVal. -/
def keyVal (k : List (List String)) : JSVal := .varr (k.map sigVal)

/-- Raw private key built by generateKeysFromSeed (src/index.js lines 92-95):
two sides derived by generateRandomArrayFromSeed from the composite strings
seed-index-a and seed-index-b. -/
def rawPrivFromSeed (S : Settings) (E : Ext) (seed : String) (index : Int) :
    List (List String) :=
  [generateRandomArrayFromSeed S E KEY_SIG_ENTRY_COUNT (seed ++ "-" ++ toString index ++ "-a"),
   generateRandomArrayFromSeed S E KEY_SIG_ENTRY_COUNT (seed ++ "-" ++ toString index ++ "-b")]

/-- Raw private key built by generateKeys (src/index.js lines 108-111). -/
def rawPrivRandom (S : Settings) (E : Ext) (rand : Nat → Nat → List Nat) :
    List (List String) :=
  [generateRandomArray S E rand 0 KEY_SIG_ENTRY_COUNT S.hashElementByteSize,
   generateRandomArray S E rand KEY_SIG_ENTRY_COUNT KEY_SIG_ENTRY_COUNT S.hashElementByteSize]

/-- Public key derived from a raw private key (src/index.js lines 97-99 and
113-115): each block mapped through this.hash(block, this.hashEncoding). -/
def pubOfPriv (S : Settings) (E : Ext) (priv : List (List String)) : List (List String) :=
  priv.map (fun privateKeyPart =>
    privateKeyPart.map (fun encodedString => S.hashF E (.vstr encodedString) (some S.hashEncoding)))

/-- Coercion of array entries to bytes as Buffer.from(array) performs it:
numbers reduce modulo 256; other entries (except numeric strings, which do
not occur here and are not modeled) become 0. -/
def jsByteOf : JSVal → Nat
  | .vnum n => (n % 256).toNat
  | _ => 0

/-- Buffer.from(v, encodingName): strings decode through the named codec,
Buffers are copied, arrays coerce entrywise, and null, undefined, numbers
and booleans throw a TypeError. -/
def jsBufferFrom (E : Ext) (v : JSVal) (enc : String) : Except String (List Nat) :=
  match v with
  | .vstr s => .ok (E.encFrom enc s)
  | .vbuf b => .ok b
  | .varr xs => .ok (xs.map jsByteOf)
  | _ => .error "TypeError"

/-- Iteration (for..of) over a value: arrays yield their entries, strings
their characters, Buffers their bytes; other values are not iterable and
throw a TypeError. -/
def jsIter : JSVal → Except String (List JSVal)
  | .varr xs => .ok xs
  | .vstr s => .ok (s.toList.map (fun c => .vstr (String.mk [c])))
  | .vbuf b => .ok (b.map (fun x => .vnum (Int.ofNat x)))
  | _ => .error "TypeError"

/-- Method _encodeKeyToBuffer (src/index.js lines 187-195): push
Buffer.from(item, this.hashEncoding) for every item of every key part, then
concatenate. -/
def encodeKeyToBuffer (S : Settings) (E : Ext) (rawKey : JSVal) :
    Except String (List Nat) := do
  let parts ← jsIter rawKey
  let bufferArrays ← parts.mapM (fun keyPart => do
    let items ← jsIter keyPart
    items.mapM (fun item => jsBufferFrom E item S.hashEncoding))
  return bufferArrays.flatten.flatten

/-- Method _encodeSignatureToBuffer (src/index.js lines 215-221). -/
def encodeSignatureToBuffer (S : Settings) (E : Ext) (rawSignature : JSVal) :
    Except String (List Nat) := do
  let items ← jsIter rawSignature
  let bufferArray ← items.mapM (fun item => jsBufferFrom E item S.hashEncoding)
  return bufferArray.flatten

/-- Expression encoded.slice(byteOffset, byteOffset + hashElementByteSize)
followed by .toString(this.hashEncoding), as the buffer decoders perform per
block (src/index.js lines 203-204, 209-210, 227-228).  Buffers slice bytes
and render them through the encoding; strings slice characters, and
String.prototype.toString ignores the encoding argument; null, undefined,
numbers and booleans have no slice method and throw a TypeError.  The
Array.prototype.slice path cannot arise from the wire formats and is not
modeled. -/
def sliceToStr (S : Settings) (E : Ext) (encoded : JSVal) (byteOffset : Nat) :
    Except String String :=
  match encoded with
  | .vbuf b => .ok (E.encTo S.hashEncoding ((b.drop byteOffset).take S.hashElementByteSize))
  | .vstr s => .ok (String.mk ((s.toList.drop byteOffset).take S.hashElementByteSize))
  | _ => .error "TypeError"

/-- Method _decodeKeyFromBuffer (src/index.js lines 197-213): slice out 256
blocks for the first side, then 256 blocks starting at entry 256 for the
second side. -/
def decodeKeyFromBuffer (S : Settings) (E : Ext) (encodedKey : JSVal) :
    Except String JSVal := do
  let keyFirstPart ← (List.range KEY_SIG_ENTRY_COUNT).mapM
    (fun i => (sliceToStr S E encodedKey (i * S.hashElementByteSize)).map JSVal.vstr)
  let keySecondPart ← (List.range KEY_SIG_ENTRY_COUNT).mapM
    (fun i => (sliceToStr S E encodedKey ((KEY_SIG_ENTRY_COUNT + i) * S.hashElementByteSize)).map JSVal.vstr)
  return .varr [.varr keyFirstPart, .varr keySecondPart]

/-- Method _decodeSignatureFromBuffer (src/index.js lines 223-231). -/
def decodeSignatureFromBuffer (S : Settings) (E : Ext) (encodedSignature : JSVal) :
    Except String JSVal := do
  let signatureArray ← (List.range KEY_SIG_ENTRY_COUNT).mapM
    (fun i => (sliceToStr S E encodedSignature (i * S.hashElementByteSize)).map JSVal.vstr)
  return .varr signatureArray

/-- Closure this.encodeKey selected by the constructor from this.keyFormat
(src/index.js lines 21-50): pass-through for object, JSON.stringify for
json, raw buffer for buffer, otherwise buffer rendered as text in the
keyFormat encoding. -/
def encodeKey (S : Settings) (E : Ext) (rawKey : JSVal) : Except String JSVal :=
  if S.keyFormat = "object" then .ok rawKey
  else if S.keyFormat = "json" then .ok (.vstr (E.jsonStringify rawKey))
  else if S.keyFormat = "buffer" then (encodeKeyToBuffer S E rawKey).map JSVal.vbuf
  else (encodeKeyToBuffer S E rawKey).map (fun b => .vstr (E.encTo S.keyFormat b))

/-- Closure this.decodeKey selected by the constructor (src/index.js
lines 21-50). -/
def decodeKey (S : Settings) (E : Ext) (encodedKey : JSVal) : Except String JSVal :=
  if S.keyFormat = "object" then .ok encodedKey
  else if S.keyFormat = "json" then E.jsonParseVal encodedKey
  else if S.keyFormat = "buffer" then decodeKeyFromBuffer S E encodedKey
  else (jsBufferFrom E encodedKey S.keyFormat).bind
    (fun keyBuffer => decodeKeyFromBuffer S E (.vbuf keyBuffer))

/-- Closure this.encodeSignature selected by the constructor (src/index.js
lines 52-81). -/
def encodeSignature (S : Settings) (E : Ext) (rawSignature : JSVal) : Except String JSVal :=
  if S.signatureFormat = "object" then .ok rawSignature
  else if S.signatureFormat = "json" then .ok (.vstr (E.jsonStringify rawSignature))
  else if S.signatureFormat = "buffer" then (encodeSignatureToBuffer S E rawSignature).map JSVal.vbuf
  else (encodeSignatureToBuffer S E rawSignature).map (fun b => .vstr (E.encTo S.signatureFormat b))

/-- Closure this.decodeSignature selected by the constructor (src/index.js
lines 52-81). -/
def decodeSignature (S : Settings) (E : Ext) (encodedSignature : JSVal) : Except String JSVal :=
  if S.signatureFormat = "object" then .ok encodedSignature
  else if S.signatureFormat = "json" then E.jsonParseVal encodedSignature
  else if S.signatureFormat = "buffer" then decodeSignatureFromBuffer S E encodedSignature
  else (jsBufferFrom E encodedSignature S.signatureFormat).bind
    (fun signatureBuffer => decodeSignatureFromBuffer S E (.vbuf signatureBuffer))

/-- A generated key pair as returned by generateKeys and
generateKeysFromSeed: both components already in the configured key format. -/
structure KeyPair where
  privateKey : JSVal
  publicKey : JSVal

/-- Method generateKeysFromSeed (src/index.js lines 88-105): default the
index to 0 when null or undefined, derive the two private sides from the
composite seed strings, hash each block for the public key, and encode both
keys. -/
def generateKeysFromSeed (S : Settings) (E : Ext) (seed : String) (index : Option Int) :
    Except String KeyPair := do
  let priv := rawPrivFromSeed S E seed (index.getD 0)
  let pub := pubOfPriv S E priv
  let privateKey ← encodeKey S E (keyVal priv)
  let publicKey ← encodeKey S E (keyVal pub)
  return ⟨privateKey, publicKey⟩

/-- Method generateKeys (src/index.js lines 107-121). -/
def generateKeys (S : Settings) (E : Ext) (rand : Nat → Nat → List Nat) :
    Except String KeyPair := do
  let priv := rawPrivRandom S E rand
  let pub := pubOfPriv S E priv
  let privateKey ← encodeKey S E (keyVal priv)
  let publicKey ← encodeKey S E (keyVal pub)
  return ⟨privateKey, publicKey⟩

/-- Bits of one byte, most significant first: byte >> (7 - i) & 1 for i
from 0 to 7 (src/index.js lines 180-182). -/
def jsBits (byte : Nat) : List Nat :=
  (List.range 8).map (fun i => (byte >>> (7 - i)) &&& 1)

/-- Method convertEncodedStringToBitArray (src/index.js lines 175-185):
decode the string through this.hashEncoding and emit the bits of each byte,
most significant bit first. -/
def convertEncodedStringToBitArray (S : Settings) (E : Ext) (encodedString : String) :
    List Nat :=
  ((E.encFrom S.hashEncoding encodedString).map jsBits).flatten

/-- Byte sequence of the message digest exactly as sign and verify obtain it
(src/index.js lines 125-126 and 141-142): this.sha256(message,
this.hashEncoding) decoded back through this.hashEncoding. -/
def messageDigestBytes (S : Settings) (E : Ext) (message : JSVal) : List Nat :=
  E.encFrom S.hashEncoding (sha256 E message (some S.hashEncoding))

/-- Bit array driving block selection in sign and verify (src/index.js
lines 125-126 and 141-142): always computed with the built-in sha256 method,
never with the configured hashFunction. -/
def messageBitArrayOf (S : Settings) (E : Ext) (message : JSVal) : List Nat :=
  convertEncodedStringToBitArray S E (sha256 E message (some S.hashEncoding))

/-- Raw signature that sign produces for a structured two-sided private key
(src/index.js line 127): for position index and bit value bit of the message
bit array, the block privateKey[bit][index]. -/
def rawSignatureOf (S : Settings) (E : Ext) (message : JSVal)
    (priv : List (List String)) : List String :=
  (messageBitArrayOf S E message).enum.map (fun p => (priv.getD p.2 []).getD p.1 "")

/-- Method sign (src/index.js lines 123-130): decode the private key,
compute the message bit array, pick privateKeyRaw[bit][index] for each bit,
and encode the resulting signature. -/
def sign (S : Settings) (E : Ext) (message privateKey : JSVal) : Except String JSVal := do
  let privateKeyRaw ← decodeKey S E privateKey
  let messageBitArray := messageBitArrayOf S E message
  let signature ← messageBitArray.enum.mapM (fun p =>
    (privateKeyRaw.idx p.2).bind (fun side => side.idx p.1))
  encodeSignature S E (.varr signature)

/-- Method verify (src/index.js lines 132-149): decode the signature and the
public key inside try/catch (any decode error yields false); then check
every bit position, comparing this.hash(signatureRaw[index],
this.hashEncoding) with publicKeyRaw[bit][index].  Exceptions thrown by the
comparison loop itself are outside the try/catch and propagate. -/
def verify (S : Settings) (E : Ext) (message signature publicKey : JSVal) :
    Except String Bool :=
  match (decodeSignature S E signature).bind (fun signatureRaw =>
      (decodeKey S E publicKey).map (fun publicKeyRaw => (signatureRaw, publicKeyRaw))) with
  | .error _ => .ok false
  | .ok (signatureRaw, publicKeyRaw) =>
    let messageBitArray := messageBitArrayOf S E message
    List.allM (fun p =>
      (signatureRaw.idx p.1).bind (fun sigItem =>
        let signatureItemHash := S.hashF E sigItem (some S.hashEncoding)
        (publicKeyRaw.idx p.2).bind (fun side =>
          (side.idx p.1).map (fun targetPublicKeyItem =>
            strictEqStr signatureItemHash targetPublicKeyItem))))
      messageBitArray.enum

/-- Bit i of the 256-bit message digest, most significant bit first within
each byte: bit (7 - i mod 8) of digest byte (i / 8).  This is the selector
the specification describes for signature block i. -/
def bitOfDigest (S : Settings) (E : Ext) (message : JSVal) (i : Nat) : Nat :=
  (((messageDigestBytes S E message).getD (i / 8) 0) >>> (7 - i % 8)) &&& 1

/-- Byte representation of one block string under the configured
hashEncoding, as Buffer.from(block, this.hashEncoding) produces it. -/
def blockBytes (S : Settings) (E : Ext) (s : String) : List Nat :=
  E.encFrom S.hashEncoding s

/-- Blocks of the fixed element byte size, canonically encoded: each block
decodes under the configured hashEncoding to exactly hashElementByteSize
bytes, and re-encoding those bytes restores the block string. -/
def blocksOk (S : Settings) (E : Ext) (l : List String) : Prop :=
  ∀ s ∈ l, (E.encFrom S.hashEncoding s).length = S.hashElementByteSize ∧
    E.encTo S.hashEncoding (E.encFrom S.hashEncoding s) = s

/-
Concrete instantiations of the external collaborators and of configurations,
used to evaluate the embedded operations on explicit inputs.
-/

/-- Render bytes as characters one to one (a latin1-style codec serving as a
concrete instantiation of the abstract byte/text codecs). -/
def latin1To (b : List Nat) : String := String.mk (b.map Char.ofNat)

/-- Decode characters back to their code points. -/
def latin1From (s : String) : List Nat := s.toList.map Char.toNat

/-- Concrete external collaborators: the digest of a string is the string
itself, every named codec is the latin1-style codec, JSON parsing always
fails, and the HMAC primitive returns a fixed tag. -/
def Ew : Ext where
  sha256hex := fun v => match v with | .vstr s => s | _ => ""
  encTo := fun _ b => latin1To b
  encFrom := fun _ s => latin1From s
  jsonStringify := fun _ => ""
  jsonParseVal := fun _ => .error "SyntaxError"
  hmacSha256 := fun _ _ _ => "MAC"

/-- Configuration selecting structured pass-through for keys and signatures,
with the constructor defaults otherwise. -/
def Sobj : Settings := { keyFormat := "object", signatureFormat := "object" }

/-- Configuration selecting the json wire format for keys and signatures. -/
def Sjson : Settings := { keyFormat := "json", signatureFormat := "json" }

/-- Configuration with a constant custom hashFunction. -/
def Scst : Settings :=
  { keyFormat := "object", signatureFormat := "object",
    hashFn := some (fun _ _ => "K") }

/-- Concrete 32-character block string; under Ew it decodes to exactly 32
bytes and re-encodes to itself. -/
def blockW : String := "0123456789abcdef0123456789abcdef"

/-- Concrete message whose digest under Ew has exactly 32 bytes. -/
def mW : JSVal := .vstr blockW

/-- Concrete raw private key derived from seed s at index 0 under Sobj, Ew. -/
def privW : List (List String) := rawPrivFromSeed Sobj Ew "s" 0

/-- Concrete key pair as generateKeysFromSeed Sobj Ew "s" none returns it. -/
def kpW : KeyPair := ⟨keyVal privW, keyVal (pubOfPriv Sobj Ew privW)⟩

/-
Generic lemmas about the Except monad and about lists, used by the claim
proofs below.
-/

theorem ok_bind {α β : Type} (a : α) (f : α → Except String β) :
    (Except.ok a >>= f) = f a := rfl

theorem error_bind {α β : Type} (e : String) (f : α → Except String β) :
    ((Except.error e : Except String α) >>= f) = .error e := rfl

theorem ok_map {α β : Type} (a : α) (f : α → β) :
    (Except.ok a : Except String α).map f = .ok (f a) := rfl

theorem okE_bind {α β : Type} (a : α) (f : α → Except String β) :
    (Except.ok a : Except String α).bind f = f a := rfl

theorem error_map {α β : Type} (e : String) (f : α → β) :
    (Except.error e : Except String α).map f = .error e := rfl

theorem mapM_ok_of_forall {α β : Type} (l : List α) (f : α → Except String β) (g : α → β)
    (h : ∀ x ∈ l, f x = .ok (g x)) : l.mapM f = .ok (l.map g) := by
  induction l with
  | nil => rfl
  | cons a t ih =>
    rw [List.mapM_cons, h a (List.mem_cons_self a t),
      ih (fun x hx => h x (List.mem_cons_of_mem a hx))]
    rfl

theorem allM_ok_of_forall {α : Type} (f : α → Except String Bool) (l : List α)
    (h : ∀ x ∈ l, f x = .ok true) : List.allM f l = .ok true := by
  induction l with
  | nil => rfl
  | cons a t ih =>
    have ha := h a (List.mem_cons_self a t)
    have ht := ih (fun x hx => h x (List.mem_cons_of_mem a hx))
    show (f a >>= fun b => match b with | true => List.allM f t | false => pure false)
        = Except.ok true
    rw [ha, ok_bind, ht]

theorem allM_congr {α : Type} (f g : α → Except String Bool) (l : List α)
    (h : ∀ x ∈ l, f x = g x) : List.allM f l = List.allM g l := by
  induction l with
  | nil => rfl
  | cons a t ih =>
    have ha := h a (List.mem_cons_self a t)
    have ht := ih (fun x hx => h x (List.mem_cons_of_mem a hx))
    show (f a >>= fun b => match b with | true => List.allM f t | false => pure false)
        = (g a >>= fun b => match b with | true => List.allM g t | false => pure false)
    rw [ha, ht]

theorem getD_map_of_lt {α β : Type} (f : α → β) (l : List α) (i : Nat) (d : β) (d2 : α)
    (h : i < l.length) : (l.map f).getD i d = f (l.getD i d2) := by
  have hx : l[i]? = some (l.get ⟨i, h⟩) := List.getElem?_eq_getElem h
  rw [List.getD_eq_getElem?_getD, List.getD_eq_getElem?_getD, List.getElem?_map, hx]
  rfl

theorem flatten_slice {B : Nat} (L : List (List Nat)) :
    ∀ (i : Nat), (∀ x ∈ L, x.length = B) →
      ((L.flatten.drop (i * B)).take B) = L.getD i [] := by
  induction L with
  | nil => intro i _; simp
  | cons x t ih =>
    intro i h
    have hx : x.length = B := h x (List.mem_cons_self x t)
    cases i with
    | zero =>
      simp only [List.flatten_cons, Nat.zero_mul, List.drop_zero, List.getD]
      rw [← hx, List.take_left]
      rfl
    | succ j =>
      have harith : (j + 1) * B = x.length + j * B := by rw [hx]; ring
      rw [List.flatten_cons, harith, ← List.drop_drop, List.drop_left]
      exact ih j (fun y hy => h y (List.mem_cons_of_mem x hy))

theorem map_range_eq {α : Type} (l : List α) (f : Nat → α)
    (h : ∀ (i : Nat) (hi : i < l.length), f i = l.get ⟨i, hi⟩) :
    (List.range l.length).map f = l := by
  apply List.ext_getElem?
  intro i
  by_cases hi : i < l.length
  · rw [List.getElem?_map, List.getElem?_range hi, List.getElem?_eq_getElem hi]
    exact congrArg some (h i hi)
  · have h1 : (List.range l.length).length ≤ i := by simpa using Nat.le_of_not_lt hi
    have h2 : l.length ≤ i := Nat.le_of_not_lt hi
    rw [List.getElem?_map, List.getElem?_eq_none h1, List.getElem?_eq_none h2]
    rfl

theorem jsBits_length (b : Nat) : (jsBits b).length = 8 := by simp [jsBits]

theorem bitArray_length (bytes : List Nat) :
    ((bytes.map jsBits).flatten).length = 8 * bytes.length := by
  induction bytes with
  | nil => simp
  | cons b t ih =>
    simp only [List.map_cons, List.flatten_cons, List.length_append, ih,
      jsBits_length, List.length_cons]
    ring

theorem bitArray_le_one (bytes : List Nat) :
    ∀ x ∈ (bytes.map jsBits).flatten, x ≤ 1 := by
  intro x hx
  rw [List.mem_flatten] at hx
  obtain ⟨l, hl, hxl⟩ := hx
  rw [List.mem_map] at hl
  obtain ⟨b, _, rfl⟩ := hl
  simp only [jsBits, List.mem_map, List.mem_range] at hxl
  obtain ⟨i, _, rfl⟩ := hxl
  exact Nat.and_le_right

theorem bitArray_getElem? (bytes : List Nat) :
    ∀ (i : Nat), i < 8 * bytes.length →
      ((bytes.map jsBits).flatten)[i]? =
        some (((bytes.getD (i / 8) 0) >>> (7 - i % 8)) &&& 1) := by
  induction bytes with
  | nil => intro i h; simp at h
  | cons b t ih =>
    intro i h
    rw [List.map_cons, List.flatten_cons]
    by_cases h8 : i < 8
    · have hlen : i < (jsBits b).length := by rw [jsBits_length]; exact h8
      rw [List.getElem?_append_left hlen]
      have : (jsBits b)[i]? = some ((b >>> (7 - i)) &&& 1) := by
        rw [jsBits, List.getElem?_map, List.getElem?_range h8]
        rfl
      rw [this, Nat.div_eq_of_lt h8, Nat.mod_eq_of_lt h8]
      rfl
    · have h8le : 8 ≤ i := Nat.le_of_not_lt h8
      obtain ⟨j, rfl⟩ : ∃ j, i = j + 8 := ⟨i - 8, by omega⟩
      have hlen : (jsBits b).length ≤ j + 8 := by rw [jsBits_length]; omega
      rw [List.getElem?_append_right hlen, jsBits_length]
      have hj : j < 8 * t.length := by
        simp only [List.length_cons] at h
        omega
      have := ih j hj
      rw [Nat.add_sub_cancel, this, Nat.add_div_right j (by norm_num),
        Nat.add_mod_right]
      rfl

/-
Lemmas about the embedded operations, shared by several claim proofs.
-/

theorem jsIter_sigVal (sg : List String) : jsIter (sigVal sg) = .ok (sg.map JSVal.vstr) :=
  rfl

theorem encodeSignatureToBuffer_sigVal (S : Settings) (E : Ext) (sg : List String) :
    encodeSignatureToBuffer S E (sigVal sg) = .ok ((sg.map (blockBytes S E)).flatten) := by
  unfold encodeSignatureToBuffer
  rw [jsIter_sigVal, ok_bind]
  have hm : (sg.map JSVal.vstr).mapM (fun item => jsBufferFrom E item S.hashEncoding) =
      .ok ((sg.map JSVal.vstr).map (fun item =>
        match item with
        | .vstr s => blockBytes S E s
        | _ => [])) := by
    apply mapM_ok_of_forall
    intro x hx
    rw [List.mem_map] at hx
    obtain ⟨s, _, rfl⟩ := hx
    rfl
  rw [hm, ok_bind, List.map_map]
  rfl

theorem encodeKeyToBuffer_keyVal (S : Settings) (E : Ext) (k : List (List String)) :
    encodeKeyToBuffer S E (keyVal k) =
      .ok ((k.map (fun part => (part.map (blockBytes S E)))).flatten.flatten) := by
  unfold encodeKeyToBuffer
  have h1 : jsIter (keyVal k) = .ok (k.map sigVal) := rfl
  rw [h1, ok_bind]
  have hm : (k.map sigVal).mapM (fun keyPart =>
        (jsIter keyPart) >>= (fun items =>
          items.mapM (fun item => jsBufferFrom E item S.hashEncoding))) =
      .ok ((k.map sigVal).map (fun keyPart =>
        match keyPart with
        | .varr items => items.map (fun item =>
            match item with
            | .vstr s => blockBytes S E s
            | _ => [])
        | _ => [])) := by
    apply mapM_ok_of_forall
    intro x hx
    rw [List.mem_map] at hx
    obtain ⟨part, _, rfl⟩ := hx
    rw [jsIter_sigVal, ok_bind]
    have hin : (part.map JSVal.vstr).mapM (fun item => jsBufferFrom E item S.hashEncoding) =
        .ok ((part.map JSVal.vstr).map (fun item =>
          match item with
          | .vstr s => blockBytes S E s
          | _ => [])) := by
      apply mapM_ok_of_forall
      intro y hy
      rw [List.mem_map] at hy
      obtain ⟨s, _, rfl⟩ := hy
      rfl
    rw [hin]
    rfl
  rw [hm, ok_bind, List.map_map]
  have : (fun keyPart =>
      match keyPart with
      | JSVal.varr items => items.map (fun item =>
          match item with
          | JSVal.vstr s => blockBytes S E s
          | _ => [])
      | _ => ([] : List (List Nat))) ∘ sigVal =
      fun part => (part.map (blockBytes S E)) := by
    funext part
    show (part.map JSVal.vstr).map _ = _
    rw [List.map_map]
    rfl
  rw [this]
  rfl

theorem encodeKey_keyVal_ok (S : Settings) (E : Ext) (k : List (List String)) :
    ∃ v, encodeKey S E (keyVal k) = .ok v := by
  by_cases h1 : S.keyFormat = "object"
  · exact ⟨_, by rw [encodeKey, if_pos h1]⟩
  · by_cases h2 : S.keyFormat = "json"
    · exact ⟨_, by rw [encodeKey, if_neg h1, if_pos h2]⟩
    · by_cases h3 : S.keyFormat = "buffer"
      · exact ⟨_, by rw [encodeKey, if_neg h1, if_neg h2, if_pos h3,
          encodeKeyToBuffer_keyVal, ok_map]⟩
      · exact ⟨_, by rw [encodeKey, if_neg h1, if_neg h2, if_neg h3,
          encodeKeyToBuffer_keyVal, ok_map]⟩

theorem encodeSignature_sigVal_ok (S : Settings) (E : Ext) (sg : List String) :
    ∃ v, encodeSignature S E (sigVal sg) = .ok v := by
  by_cases h1 : S.signatureFormat = "object"
  · exact ⟨_, by rw [encodeSignature, if_pos h1]⟩
  · by_cases h2 : S.signatureFormat = "json"
    · exact ⟨_, by rw [encodeSignature, if_neg h1, if_pos h2]⟩
    · by_cases h3 : S.signatureFormat = "buffer"
      · exact ⟨_, by rw [encodeSignature, if_neg h1, if_neg h2, if_pos h3,
          encodeSignatureToBuffer_sigVal, ok_map]⟩
      · exact ⟨_, by rw [encodeSignature, if_neg h1, if_neg h2, if_neg h3,
          encodeSignatureToBuffer_sigVal, ok_map]⟩

theorem generateRandomArrayFromSeed_getD (S : Settings) (E : Ext) (len : Nat)
    (seed : String) (i : Nat) (hi : i < len) :
    (generateRandomArrayFromSeed S E len seed).getD i "" =
      S.hashF E (.vstr (seed ++ "-" ++ toString i)) none := by
  unfold generateRandomArrayFromSeed
  rw [getD_map_of_lt _ _ i "" 0 (by simpa using hi)]
  have hr : (List.range len).getD i 0 = i := by
    rw [List.getD_eq_getElem?_getD, List.getElem?_range hi]
    rfl
  rw [hr]
  rfl

theorem generateRandomArrayFromSeed_length (S : Settings) (E : Ext) (len : Nat)
    (seed : String) : (generateRandomArrayFromSeed S E len seed).length = len := by
  simp [generateRandomArrayFromSeed]

theorem generateRandomArray_length (S : Settings) (E : Ext) (rand : Nat → Nat → List Nat)
    (start len eb : Nat) : (generateRandomArray S E rand start len eb).length = len := by
  simp [generateRandomArray]

theorem pubOfPriv_getD (S : Settings) (E : Ext) (priv : List (List String)) (side i : Nat)
    (hside : side < priv.length) (hi : i < (priv.getD side []).length) :
    ((pubOfPriv S E priv).getD side []).getD i "" =
      S.hashF E (.vstr ((priv.getD side []).getD i "")) (some S.hashEncoding) := by
  unfold pubOfPriv
  rw [getD_map_of_lt _ _ side [] [] hside, getD_map_of_lt _ _ i "" "" hi]

theorem messageBitArrayOf_length (S : Settings) (E : Ext) (m : JSVal)
    (hdig : (messageDigestBytes S E m).length = 32) :
    (messageBitArrayOf S E m).length = 256 := by
  show (((messageDigestBytes S E m).map jsBits).flatten).length = 256
  rw [bitArray_length, hdig]

theorem bits_facts (S : Settings) (E : Ext) (m : JSVal) (p : Nat × Nat)
    (hdig : (messageDigestBytes S E m).length = 32)
    (hp : p ∈ (messageBitArrayOf S E m).enum) :
    p.1 < 256 ∧ p.2 ≤ 1 := by
  rw [List.mem_enum_iff_get?] at hp
  have hlt : p.1 < (messageBitArrayOf S E m).length := by
    by_contra hcon
    rw [List.get?_eq_none.mpr (Nat.le_of_not_lt hcon)] at hp
    exact Option.noConfusion hp
  rw [messageBitArrayOf_length S E m hdig] at hlt
  exact ⟨hlt, bitArray_le_one (messageDigestBytes S E m) p.2 (List.get?_mem hp)⟩

theorem mapM_bits_structured (S : Settings) (E : Ext) (m : JSVal) (a b : List String)
    (ha : a.length = 256) (hb : b.length = 256)
    (hdig : (messageDigestBytes S E m).length = 32) :
    (messageBitArrayOf S E m).enum.mapM (fun p =>
      ((keyVal [a, b]).idx p.2).bind (fun side => side.idx p.1)) =
    .ok ((messageBitArrayOf S E m).enum.map (fun p =>
      JSVal.vstr (([a, b].getD p.2 []).getD p.1 ""))) := by
  apply mapM_ok_of_forall
  intro p hp
  obtain ⟨hlt256, hble⟩ := bits_facts S E m p hdig hp
  have hcases : p.2 = 0 ∨ p.2 = 1 := by omega
  rcases hcases with h2 | h2 <;> rw [h2]
  · show Except.ok ((a.map JSVal.vstr).getD p.1 .vundefined) =
      Except.ok (JSVal.vstr (a.getD p.1 ""))
    rw [getD_map_of_lt JSVal.vstr a p.1 .vundefined "" (by rw [ha]; exact hlt256)]
  · show Except.ok ((b.map JSVal.vstr).getD p.1 .vundefined) =
      Except.ok (JSVal.vstr (b.getD p.1 ""))
    rw [getD_map_of_lt JSVal.vstr b p.1 .vundefined "" (by rw [hb]; exact hlt256)]

theorem rawPrivFromSeed_shape (S : Settings) (E : Ext) (seed : String) (index : Int) :
    ∃ a b, rawPrivFromSeed S E seed index = [a, b] ∧ a.length = 256 ∧ b.length = 256 :=
  ⟨_, _, rfl,
    generateRandomArrayFromSeed_length S E KEY_SIG_ENTRY_COUNT _,
    generateRandomArrayFromSeed_length S E KEY_SIG_ENTRY_COUNT _⟩

theorem rawPrivRandom_shape (S : Settings) (E : Ext) (rand : Nat → Nat → List Nat) :
    ∃ a b, rawPrivRandom S E rand = [a, b] ∧ a.length = 256 ∧ b.length = 256 :=
  ⟨_, _, rfl,
    generateRandomArray_length S E rand 0 KEY_SIG_ENTRY_COUNT _,
    generateRandomArray_length S E rand KEY_SIG_ENTRY_COUNT KEY_SIG_ENTRY_COUNT _⟩

/-- C10: in generateKeysFromSeed every private-key block is produced by
calling the hash with no output-encoding argument and then applying
toString(hashEncoding), which is the identity on strings; consequently,
under the default hash every seed-derived block goes through the base64
branch of the sha256 method, regardless of the configured hashEncoding
(in particular, with hashEncoding set to hex the blocks are still base64). -/
theorem seed_blocks_always_base64 (S : Settings) (E : Ext) (len : Nat) (seed : String)
    (e1 e2 : String) :
    generateRandomArrayFromSeed { S with hashFn := none } E len seed =
      (List.range len).map (fun i =>
        E.encTo "base64" (E.encFrom "hex" (E.sha256hex (.vstr (seed ++ "-" ++ toString i))))) ∧
    generateRandomArrayFromSeed { S with hashFn := none, hashEncoding := e1 } E len seed =
      generateRandomArrayFromSeed { S with hashFn := none, hashEncoding := e2 } E len seed :=
  ⟨rfl, rfl⟩

/-- C4, counterexample: a 16-byte seed, below the 32-byte minimum whose
enforcement the claim asserts, is accepted by generateKeysFromSeed, which
returns a key pair instead of failing with a validation error. -/
theorem short_seed_accepted :
    (Ew.encFrom Sobj.seedEncoding "0123456789abcdef").length = 16 ∧
    (generateKeysFromSeed Sobj Ew "0123456789abcdef" none).isOk = true :=
  ⟨by decide, rfl⟩

/-- C4, amended: generateKeysFromSeed performs no seed validation at all:
for every configuration and every seed string of any byte length it returns
a key pair and never a validation error. -/
theorem generateKeysFromSeed_never_fails (S : Settings) (E : Ext) (seed : String)
    (index : Option Int) :
    ∃ kp, generateKeysFromSeed S E seed index = .ok kp := by
  obtain ⟨v1, h1⟩ := encodeKey_keyVal_ok S E (rawPrivFromSeed S E seed (index.getD 0))
  obtain ⟨v2, h2⟩ :=
    encodeKey_keyVal_ok S E (pubOfPriv S E (rawPrivFromSeed S E seed (index.getD 0)))
  refine ⟨⟨v1, v2⟩, ?_⟩
  simp only [generateKeysFromSeed]
  rw [h1, ok_bind, h2, ok_bind]
  rfl

/-- C5, counterexample: with concrete external collaborators, the first
derived private-key block differs from the keyed-hash value
hmac(seed, seedEncoding, index-side-position, hashEncoding) prescribed by
the claim, because generateKeysFromSeed derives blocks with the configured
hash over one combined label string and never calls the HMAC module. -/
theorem seed_derivation_not_hmac :
    ((rawPrivFromSeed Sobj Ew "s" 0).getD 0 []).getD 0 "" ≠
      hmacModule Ew "s" Sobj.seedEncoding (.vstr "0-a-0") (some Sobj.hashEncoding) := by
  decide

/-- C5, amended: privateKey[side][i] is derived by the configured hash (not
the repository HMAC module, which generateKeysFromSeed never uses) applied
to the single combined string seed-index-side-i, with no output-encoding
argument. -/
theorem seed_block_derivation (S : Settings) (E : Ext) (seed : String) (index : Int)
    (side i : Nat) (hside : side < 2) (hi : i < 256) :
    ((rawPrivFromSeed S E seed index).getD side []).getD i "" =
      S.hashF E (.vstr ((seed ++ "-" ++ toString index ++ (if side = 0 then "-a" else "-b"))
        ++ "-" ++ toString i)) none := by
  interval_cases side
  · have h0 : (rawPrivFromSeed S E seed index).getD 0 [] =
        generateRandomArrayFromSeed S E KEY_SIG_ENTRY_COUNT
          (seed ++ "-" ++ toString index ++ "-a") := rfl
    rw [h0, generateRandomArrayFromSeed_getD S E KEY_SIG_ENTRY_COUNT
      (seed ++ "-" ++ toString index ++ "-a") i hi]
    rfl
  · have h1 : (rawPrivFromSeed S E seed index).getD 1 [] =
        generateRandomArrayFromSeed S E KEY_SIG_ENTRY_COUNT
          (seed ++ "-" ++ toString index ++ "-b") := rfl
    rw [h1, generateRandomArrayFromSeed_getD S E KEY_SIG_ENTRY_COUNT
      (seed ++ "-" ++ toString index ++ "-b") i hi]
    rfl

/-- Witness for seed_block_derivation at side 0, position 0, on concrete
configuration and externals. -/
theorem seed_block_derivation_witness :
    ((rawPrivFromSeed Sobj Ew "s" 0).getD 0 []).getD 0 "" =
      Sobj.hashF Ew (.vstr (("s" ++ "-" ++ toString (0 : Int) ++
        (if (0 : Nat) = 0 then "-a" else "-b")) ++ "-" ++ toString (0 : Nat))) none :=
  seed_block_derivation Sobj Ew "s" 0 0 0 (by decide) (by decide)

/-- C8, counterexample: with a constant configured hashFunction, the same
seed with indices 0 and 1 yields identical key pairs, refuting the claim
that different index values always return different key pairs. -/
theorem constant_hash_index_insensitive :
    generateKeysFromSeed Scst Ew "s" (some 0) = generateKeysFromSeed Scst Ew "s" (some 1) ∧
    (generateKeysFromSeed Scst Ew "s" (some 0)).isOk = true :=
  ⟨rfl, rfl⟩

/-- C8, amended: generateKeysFromSeed is a pure function of the
configuration, externals, seed and index, so identical calls return
identical key pairs; and whenever the configured hash separates the first
derivation labels of two indices (as a collision-resistant hash does),
the derived raw private keys differ. -/
theorem generateKeysFromSeed_deterministic (S : Settings) (E : Ext) (seed : String)
    (i1 i2 : Int)
    (hsep : S.hashF E (.vstr ((seed ++ "-" ++ toString i1 ++ "-a") ++ "-" ++
        toString (0 : Nat))) none ≠
      S.hashF E (.vstr ((seed ++ "-" ++ toString i2 ++ "-a") ++ "-" ++
        toString (0 : Nat))) none) :
    generateKeysFromSeed S E seed (some i1) = generateKeysFromSeed S E seed (some i1) ∧
    rawPrivFromSeed S E seed i1 ≠ rawPrivFromSeed S E seed i2 := by
  refine ⟨rfl, fun heq => hsep ?_⟩
  have h0 : ((rawPrivFromSeed S E seed i1).getD 0 []).getD 0 "" =
      ((rawPrivFromSeed S E seed i2).getD 0 []).getD 0 "" := by rw [heq]
  have e1 : (rawPrivFromSeed S E seed i1).getD 0 [] =
      generateRandomArrayFromSeed S E KEY_SIG_ENTRY_COUNT
        (seed ++ "-" ++ toString i1 ++ "-a") := rfl
  have e2 : (rawPrivFromSeed S E seed i2).getD 0 [] =
      generateRandomArrayFromSeed S E KEY_SIG_ENTRY_COUNT
        (seed ++ "-" ++ toString i2 ++ "-a") := rfl
  rw [e1, e2,
    generateRandomArrayFromSeed_getD S E KEY_SIG_ENTRY_COUNT
      (seed ++ "-" ++ toString i1 ++ "-a") 0 (by norm_num [KEY_SIG_ENTRY_COUNT]),
    generateRandomArrayFromSeed_getD S E KEY_SIG_ENTRY_COUNT
      (seed ++ "-" ++ toString i2 ++ "-a") 0 (by norm_num [KEY_SIG_ENTRY_COUNT])] at h0
  exact h0

/-- Witness for generateKeysFromSeed_deterministic on concrete inputs where
the default hash separates the labels of indices 0 and 1. -/
theorem generateKeysFromSeed_deterministic_witness :
    generateKeysFromSeed Sobj Ew "s" (some 0) = generateKeysFromSeed Sobj Ew "s" (some 0) ∧
    rawPrivFromSeed Sobj Ew "s" 0 ≠ rawPrivFromSeed Sobj Ew "s" 1 :=
  generateKeysFromSeed_deterministic Sobj Ew "s" 0 1 (by decide)

/-- C3, counterexample: with the structured pass-through format, a null
signature input reaches the comparison loop, where indexing it throws a
TypeError that escapes verify instead of being converted to false. -/
theorem verify_throws_on_malformed_object_input :
    verify Sobj Ew (.vstr "mm") .vnull (.varr []) = .error "TypeError" := rfl

/-- C3, amended: every failure raised while decoding the signature or the
public key is caught by the try/catch in verify and converted to the
boolean result false; only the comparison loop on structurally malformed
decoded values can still throw. -/
theorem verify_decode_failure_yields_false (S : Settings) (E : Ext)
    (m sig pk : JSVal) (e : String)
    (h : (decodeSignature S E sig).bind (fun signatureRaw =>
        (decodeKey S E pk).map (fun publicKeyRaw => (signatureRaw, publicKeyRaw))) =
      .error e) :
    verify S E m sig pk = .ok false := by
  unfold verify
  rw [h]

/-- Witness for verify_decode_failure_yields_false: in the json format the
signature fails to parse, and verify returns false. -/
theorem verify_decode_failure_yields_false_witness :
    verify Sjson Ew (.vstr "m") (.vstr "x") (.vstr "y") = .ok false :=
  verify_decode_failure_yields_false Sjson Ew (.vstr "m") (.vstr "x") (.vstr "y")
    "SyntaxError" rfl

/-- C9: sign and verify compute the message digest with the built-in sha256
method even when a custom hashFunction is configured: sign does not depend
on the hashFn field at all, the bit-selection sequence of both operations
is messageBitArrayOf, which is computed from the built-in sha256 of the
message, and verify depends on the hashFn field only through the hashing of
signature blocks (so two hash choices agreeing on blocks make verify
agree). -/
theorem message_digest_uses_builtin_sha256 (S : Settings) (E : Ext)
    (f g f2 g2 : Option HashFunction) (m k sig pk : JSVal)
    (hagree : ∀ v : JSVal,
      Settings.hashF { S with hashFn := f } E v (some S.hashEncoding) =
        Settings.hashF { S with hashFn := g } E v (some S.hashEncoding)) :
    sign { S with hashFn := f2 } E m k = sign { S with hashFn := g2 } E m k ∧
    messageBitArrayOf { S with hashFn := f2 } E m = messageBitArrayOf S E m ∧
    messageBitArrayOf S E m =
      convertEncodedStringToBitArray S E (sha256 E m (some S.hashEncoding)) ∧
    verify { S with hashFn := f } E m sig pk = verify { S with hashFn := g } E m sig pk := by
  refine ⟨rfl, rfl, rfl, ?_⟩
  have hds : decodeSignature { S with hashFn := f } E sig =
      decodeSignature { S with hashFn := g } E sig := rfl
  have hdk : decodeKey { S with hashFn := f } E pk =
      decodeKey { S with hashFn := g } E pk := rfl
  have hbits : messageBitArrayOf { S with hashFn := f } E m =
      messageBitArrayOf { S with hashFn := g } E m := rfl
  unfold verify
  rw [hds, hdk, hbits]
  cases hX : (decodeSignature { S with hashFn := g } E sig).bind (fun signatureRaw =>
      (decodeKey { S with hashFn := g } E pk).map
        (fun publicKeyRaw => (signatureRaw, publicKeyRaw))) with
  | error e => rfl
  | ok pr =>
    obtain ⟨signatureRaw, publicKeyRaw⟩ := pr
    apply allM_congr
    intro p _
    cases hx : signatureRaw.idx p.1 with
    | error e => rfl
    | ok sigItem =>
      exact congrArg (fun t => (publicKeyRaw.idx p.2).bind (fun side =>
        (side.idx p.1).map (fun targetPublicKeyItem =>
          strictEqStr t targetPublicKeyItem))) (hagree sigItem)

theorem getD_eq_getElem_of_lt {α : Type} (l : List α) (i : Nat) (d : α)
    (h : i < l.length) : l.getD i d = l[i] := by
  rw [List.getD_eq_getElem?_getD, List.getElem?_eq_getElem h]
  rfl

theorem getD_mem_of_lt {α : Type} (l : List α) (i : Nat) (d : α)
    (h : i < l.length) : l.getD i d ∈ l := by
  rw [getD_eq_getElem_of_lt l i d h]
  exact List.getElem_mem h

theorem mapM_range_vstr (n : Nat) (g : Nat → Except String String) (part : List String)
    (hlen : part.length = n)
    (hpt : ∀ i, i < n → g i = .ok (part.getD i "")) :
    (List.range n).mapM (fun i => (g i).map JSVal.vstr) = .ok (part.map JSVal.vstr) := by
  have h1 : (List.range n).mapM (fun i => (g i).map JSVal.vstr) =
      .ok ((List.range n).map (fun i => JSVal.vstr (part.getD i ""))) := by
    apply mapM_ok_of_forall
    intro i hi
    rw [List.mem_range] at hi
    rw [hpt i hi, ok_map]
  rw [h1]
  congr 1
  have hr := map_range_eq (part.map JSVal.vstr) (fun i => JSVal.vstr (part.getD i ""))
    (fun i hi => by
      have hip : i < part.length := by simpa using hi
      show JSVal.vstr (part.getD i "") = _
      rw [List.get_eq_getElem, List.getElem_map, getD_eq_getElem_of_lt part i "" hip])
  rw [List.length_map, hlen] at hr
  exact hr

theorem decodeSignatureFromBuffer_canonical (S : Settings) (E : Ext) (sg : List String)
    (hsl : sg.length = 256) (hsb : blocksOk S E sg) :
    decodeSignatureFromBuffer S E (.vbuf ((sg.map (blockBytes S E)).flatten)) =
      .ok (sigVal sg) := by
  have huni : ∀ x ∈ sg.map (blockBytes S E), x.length = S.hashElementByteSize := by
    intro x hx
    rw [List.mem_map] at hx
    obtain ⟨s, hs, rfl⟩ := hx
    exact (hsb s hs).1
  have hpt : ∀ i, i < KEY_SIG_ENTRY_COUNT →
      sliceToStr S E (.vbuf ((sg.map (blockBytes S E)).flatten))
        (i * S.hashElementByteSize) = .ok (sg.getD i "") := by
    intro i hi
    show Except.ok (E.encTo S.hashEncoding
      ((((sg.map (blockBytes S E)).flatten).drop (i * S.hashElementByteSize)).take
        S.hashElementByteSize)) = _
    rw [flatten_slice (sg.map (blockBytes S E)) i huni,
      getD_map_of_lt (blockBytes S E) sg i [] "" (by rw [hsl]; exact hi)]
    show Except.ok (E.encTo S.hashEncoding (E.encFrom S.hashEncoding (sg.getD i ""))) =
      Except.ok (sg.getD i "")
    rw [(hsb _ (getD_mem_of_lt sg i "" (by rw [hsl]; exact hi))).2]
  have hloop : (List.range KEY_SIG_ENTRY_COUNT).mapM (fun i =>
      (sliceToStr S E (.vbuf ((sg.map (blockBytes S E)).flatten))
        (i * S.hashElementByteSize)).map JSVal.vstr) = .ok (sg.map JSVal.vstr) :=
    mapM_range_vstr KEY_SIG_ENTRY_COUNT _ sg hsl hpt
  unfold decodeSignatureFromBuffer
  rw [hloop, ok_bind]
  rfl

theorem decodeKeyFromBuffer_canonical (S : Settings) (E : Ext) (a b : List String)
    (ha : a.length = 256) (hb : b.length = 256)
    (hba : blocksOk S E a) (hbb : blocksOk S E b) :
    decodeKeyFromBuffer S E
      (.vbuf (([a, b].map (fun part => part.map (blockBytes S E))).flatten.flatten)) =
      .ok (keyVal [a, b]) := by
  have hBL : ([a, b].map (fun part => part.map (blockBytes S E))).flatten =
      a.map (blockBytes S E) ++ b.map (blockBytes S E) := by
    show a.map (blockBytes S E) ++ (b.map (blockBytes S E) ++ []) = _
    rw [List.append_nil]
  have hlenA : (a.map (blockBytes S E)).length = 256 := by
    rw [List.length_map, ha]
  have huni : ∀ x ∈ a.map (blockBytes S E) ++ b.map (blockBytes S E),
      x.length = S.hashElementByteSize := by
    intro x hx
    rcases List.mem_append.mp hx with hx | hx
    · rw [List.mem_map] at hx
      obtain ⟨s, hs, rfl⟩ := hx
      exact (hba s hs).1
    · rw [List.mem_map] at hx
      obtain ⟨s, hs, rfl⟩ := hx
      exact (hbb s hs).1
  have hpt1 : ∀ i, i < KEY_SIG_ENTRY_COUNT →
      sliceToStr S E
        (.vbuf (([a, b].map (fun part => part.map (blockBytes S E))).flatten.flatten))
        (i * S.hashElementByteSize) = .ok (a.getD i "") := by
    intro i hi
    show Except.ok (E.encTo S.hashEncoding
      (((([a, b].map (fun part => part.map (blockBytes S E))).flatten.flatten).drop
        (i * S.hashElementByteSize)).take S.hashElementByteSize)) = _
    rw [hBL, flatten_slice (a.map (blockBytes S E) ++ b.map (blockBytes S E)) i huni,
      List.getD_append _ _ [] i (by rw [hlenA]; exact hi),
      getD_map_of_lt (blockBytes S E) a i [] "" (by rw [ha]; exact hi)]
    show Except.ok (E.encTo S.hashEncoding (E.encFrom S.hashEncoding (a.getD i ""))) =
      Except.ok (a.getD i "")
    rw [(hba _ (getD_mem_of_lt a i "" (by rw [ha]; exact hi))).2]
  have hpt2 : ∀ i, i < KEY_SIG_ENTRY_COUNT →
      sliceToStr S E
        (.vbuf (([a, b].map (fun part => part.map (blockBytes S E))).flatten.flatten))
        ((KEY_SIG_ENTRY_COUNT + i) * S.hashElementByteSize) = .ok (b.getD i "") := by
    intro i hi
    show Except.ok (E.encTo S.hashEncoding
      (((([a, b].map (fun part => part.map (blockBytes S E))).flatten.flatten).drop
        ((KEY_SIG_ENTRY_COUNT + i) * S.hashElementByteSize)).take
        S.hashElementByteSize)) = _
    rw [hBL,
      flatten_slice (a.map (blockBytes S E) ++ b.map (blockBytes S E))
        (KEY_SIG_ENTRY_COUNT + i) huni,
      List.getD_append_right _ _ [] (KEY_SIG_ENTRY_COUNT + i)
        (by rw [hlenA]; show 256 ≤ 256 + i; omega),
      hlenA,
      show KEY_SIG_ENTRY_COUNT + i - 256 = i from by norm_num [KEY_SIG_ENTRY_COUNT],
      getD_map_of_lt (blockBytes S E) b i [] "" (by rw [hb]; exact hi)]
    show Except.ok (E.encTo S.hashEncoding (E.encFrom S.hashEncoding (b.getD i ""))) =
      Except.ok (b.getD i "")
    rw [(hbb _ (getD_mem_of_lt b i "" (by rw [hb]; exact hi))).2]
  have h1 : (List.range KEY_SIG_ENTRY_COUNT).mapM (fun i =>
      (sliceToStr S E
        (.vbuf (([a, b].map (fun part => part.map (blockBytes S E))).flatten.flatten))
        (i * S.hashElementByteSize)).map JSVal.vstr) = .ok (a.map JSVal.vstr) :=
    mapM_range_vstr KEY_SIG_ENTRY_COUNT _ a ha hpt1
  have h2 : (List.range KEY_SIG_ENTRY_COUNT).mapM (fun i =>
      (sliceToStr S E
        (.vbuf (([a, b].map (fun part => part.map (blockBytes S E))).flatten.flatten))
        ((KEY_SIG_ENTRY_COUNT + i) * S.hashElementByteSize)).map JSVal.vstr) =
      .ok (b.map JSVal.vstr) :=
    mapM_range_vstr KEY_SIG_ENTRY_COUNT _ b hb hpt2
  unfold decodeKeyFromBuffer
  rw [h1, ok_bind, h2, ok_bind]
  rfl

/-- C7: decode(encode(x)) = x for two-sided keys and for signatures whose
blocks are canonical and of the fixed element byte size, in each of the four
wire formats.  For the json format the external JSON codec is assumed
inverse on the encoded value, and for a text-encoded-buffer format the
external text codec is assumed inverse on the produced buffer: both are
builtins outside the repository. -/
theorem codec_roundtrip (S : Settings) (E : Ext) (a b sg : List String)
    (ha : a.length = 256) (hb : b.length = 256)
    (hba : blocksOk S E a) (hbb : blocksOk S E b)
    (hsl : sg.length = 256) (hsb : blocksOk S E sg)
    (hjsonK : S.keyFormat = "json" →
      E.jsonParseVal (.vstr (E.jsonStringify (keyVal [a, b]))) = .ok (keyVal [a, b]))
    (hjsonS : S.signatureFormat = "json" →
      E.jsonParseVal (.vstr (E.jsonStringify (sigVal sg))) = .ok (sigVal sg))
    (houtK : S.keyFormat ≠ "object" → S.keyFormat ≠ "json" → S.keyFormat ≠ "buffer" →
      E.encFrom S.keyFormat (E.encTo S.keyFormat
        (([a, b].map (fun part => part.map (blockBytes S E))).flatten.flatten)) =
        ([a, b].map (fun part => part.map (blockBytes S E))).flatten.flatten)
    (houtS : S.signatureFormat ≠ "object" → S.signatureFormat ≠ "json" →
      S.signatureFormat ≠ "buffer" →
      E.encFrom S.signatureFormat (E.encTo S.signatureFormat
        ((sg.map (blockBytes S E)).flatten)) = (sg.map (blockBytes S E)).flatten) :
    (encodeKey S E (keyVal [a, b])).bind (decodeKey S E) = .ok (keyVal [a, b]) ∧
    (encodeSignature S E (sigVal sg)).bind (decodeSignature S E) =
      .ok (sigVal sg) := by
  constructor
  · by_cases h1 : S.keyFormat = "object"
    · rw [encodeKey, if_pos h1, okE_bind, decodeKey, if_pos h1]
    · by_cases h2 : S.keyFormat = "json"
      · rw [encodeKey, if_neg h1, if_pos h2, okE_bind, decodeKey, if_neg h1, if_pos h2]
        exact hjsonK h2
      · by_cases h3 : S.keyFormat = "buffer"
        · rw [encodeKey, if_neg h1, if_neg h2, if_pos h3, encodeKeyToBuffer_keyVal,
            ok_map, okE_bind, decodeKey, if_neg h1, if_neg h2, if_pos h3]
          exact decodeKeyFromBuffer_canonical S E a b ha hb hba hbb
        · rw [encodeKey, if_neg h1, if_neg h2, if_neg h3, encodeKeyToBuffer_keyVal,
            ok_map, okE_bind, decodeKey, if_neg h1, if_neg h2, if_neg h3]
          show (Except.ok (E.encFrom S.keyFormat (E.encTo S.keyFormat
            (([a, b].map (fun part => part.map (blockBytes S E))).flatten.flatten)))).bind
            (fun keyBuffer => decodeKeyFromBuffer S E (.vbuf keyBuffer)) = _
          rw [okE_bind, houtK h1 h2 h3]
          exact decodeKeyFromBuffer_canonical S E a b ha hb hba hbb
  · by_cases h1 : S.signatureFormat = "object"
    · rw [encodeSignature, if_pos h1, okE_bind, decodeSignature, if_pos h1]
    · by_cases h2 : S.signatureFormat = "json"
      · rw [encodeSignature, if_neg h1, if_pos h2, okE_bind, decodeSignature,
          if_neg h1, if_pos h2]
        exact hjsonS h2
      · by_cases h3 : S.signatureFormat = "buffer"
        · rw [encodeSignature, if_neg h1, if_neg h2, if_pos h3,
            encodeSignatureToBuffer_sigVal, ok_map, okE_bind, decodeSignature,
            if_neg h1, if_neg h2, if_pos h3]
          exact decodeSignatureFromBuffer_canonical S E sg hsl hsb
        · rw [encodeSignature, if_neg h1, if_neg h2, if_neg h3,
            encodeSignatureToBuffer_sigVal, ok_map, okE_bind, decodeSignature,
            if_neg h1, if_neg h2, if_neg h3]
          show (Except.ok (E.encFrom S.signatureFormat (E.encTo S.signatureFormat
            ((sg.map (blockBytes S E)).flatten)))).bind
            (fun signatureBuffer => decodeSignatureFromBuffer S E (.vbuf signatureBuffer)) = _
          rw [okE_bind, houtS h1 h2 h3]
          exact decodeSignatureFromBuffer_canonical S E sg hsl hsb

theorem blocksOkW : blocksOk Sobj Ew (List.replicate 256 blockW) := by
  intro s hs
  rw [List.eq_of_mem_replicate hs]
  exact ⟨by decide, by decide⟩

/-- Witness for codec_roundtrip on the concrete pass-through configuration
with canonical 32-byte blocks. -/
theorem codec_roundtrip_witness :
    (encodeKey Sobj Ew (keyVal [List.replicate 256 blockW, List.replicate 256 blockW])).bind
      (decodeKey Sobj Ew) =
      .ok (keyVal [List.replicate 256 blockW, List.replicate 256 blockW]) ∧
    (encodeSignature Sobj Ew (sigVal (List.replicate 256 blockW))).bind
      (decodeSignature Sobj Ew) = .ok (sigVal (List.replicate 256 blockW)) :=
  codec_roundtrip Sobj Ew (List.replicate 256 blockW) (List.replicate 256 blockW)
    (List.replicate 256 blockW)
    (List.length_replicate 256 blockW) (List.length_replicate 256 blockW)
    blocksOkW blocksOkW
    (List.length_replicate 256 blockW) blocksOkW
    (fun h => absurd h (by decide))
    (fun h => absurd h (by decide))
    (fun hne => absurd rfl hne)
    (fun hne => absurd rfl hne)

/-- C1: for every key pair produced by generateKeysFromSeed or generateKeys
whose configured codecs round-trip on the produced values (the encoded
private and public keys decode back to the generated raw keys, and the one
signature this signing produces decodes back to its raw form) and whose
message digest has the expected 32 bytes,
verify(m, sign(m, privateKey), publicKey) returns true. -/
theorem verify_sign_roundtrip (S : Settings) (E : Ext) (m : JSVal)
    (priv : List (List String)) (kp : KeyPair)
    (hgen : (∃ (seed : String) (idxOpt : Option Int),
        priv = rawPrivFromSeed S E seed (idxOpt.getD 0) ∧
        generateKeysFromSeed S E seed idxOpt = .ok kp) ∨
      (∃ rand, priv = rawPrivRandom S E rand ∧ generateKeys S E rand = .ok kp))
    (hdecP : decodeKey S E kp.privateKey = .ok (keyVal priv))
    (hdecK : decodeKey S E kp.publicKey = .ok (keyVal (pubOfPriv S E priv)))
    (hdig : (messageDigestBytes S E m).length = 32)
    (hsigrt : ∀ w, encodeSignature S E (sigVal (rawSignatureOf S E m priv)) = .ok w →
      decodeSignature S E w = .ok (sigVal (rawSignatureOf S E m priv))) :
    (sign S E m kp.privateKey).bind (fun sig => verify S E m sig kp.publicKey) =
      .ok true := by
  obtain ⟨a, b, hab, ha, hb⟩ : ∃ a b, priv = [a, b] ∧ a.length = 256 ∧ b.length = 256 := by
    rcases hgen with ⟨seed, idxOpt, hpriv, _⟩ | ⟨rand, hpriv, _⟩
    · obtain ⟨a, b, hs, ha, hb⟩ := rawPrivFromSeed_shape S E seed (idxOpt.getD 0)
      exact ⟨a, b, by rw [hpriv, hs], ha, hb⟩
    · obtain ⟨a, b, hs, ha, hb⟩ := rawPrivRandom_shape S E rand
      exact ⟨a, b, by rw [hpriv, hs], ha, hb⟩
  subst hab
  have hmap := mapM_bits_structured S E m a b ha hb hdig
  obtain ⟨w, hw⟩ := encodeSignature_sigVal_ok S E (rawSignatureOf S E m [a, b])
  have hvarr : JSVal.varr ((messageBitArrayOf S E m).enum.map (fun p =>
      JSVal.vstr (([a, b].getD p.2 []).getD p.1 ""))) =
    sigVal (rawSignatureOf S E m [a, b]) := by
    show _ = JSVal.varr (((messageBitArrayOf S E m).enum.map (fun p =>
      ([a, b].getD p.2 []).getD p.1 "")).map JSVal.vstr)
    rw [List.map_map]
    rfl
  have hsign : sign S E m kp.privateKey = .ok w := by
    unfold sign
    rw [hdecP, ok_bind]
    show ((messageBitArrayOf S E m).enum.mapM (fun p =>
        ((keyVal [a, b]).idx p.2).bind (fun side => side.idx p.1)) >>=
        (fun signature => encodeSignature S E (JSVal.varr signature))) = _
    rw [hmap, ok_bind, hvarr]
    exact hw
  rw [hsign, okE_bind]
  have hds := hsigrt w hw
  unfold verify
  rw [hds, hdecK]
  show List.allM (fun p =>
      ((sigVal ((messageBitArrayOf S E m).enum.map (fun q =>
        ([a, b].getD q.2 []).getD q.1 ""))).idx p.1).bind (fun sigItem =>
        ((keyVal (pubOfPriv S E [a, b])).idx p.2).bind (fun side =>
          (side.idx p.1).map (fun targetPublicKeyItem =>
            strictEqStr (S.hashF E sigItem (some S.hashEncoding)) targetPublicKeyItem))))
    (messageBitArrayOf S E m).enum = .ok true
  apply allM_ok_of_forall
  intro p hp
  obtain ⟨hlt256, hble⟩ := bits_facts S E m p hdig hp
  have hpget : (messageBitArrayOf S E m).get? p.1 = some p.2 :=
    List.mem_enum_iff_get?.mp hp
  have henum : (messageBitArrayOf S E m).enum.getD p.1 p = (p.1, p.2) := by
    rw [List.getD_eq_getElem?_getD, List.getElem?_enum, ← List.get?_eq_getElem?, hpget]
    rfl
  have hsgetD : ((messageBitArrayOf S E m).enum.map (fun q =>
      ([a, b].getD q.2 []).getD q.1 "")).getD p.1 "" =
      ([a, b].getD p.2 []).getD p.1 "" := by
    rw [getD_map_of_lt _ _ p.1 "" p
      (by rw [List.enum_length, messageBitArrayOf_length S E m hdig]; exact hlt256), henum]
  have hsidx : (sigVal ((messageBitArrayOf S E m).enum.map (fun q =>
      ([a, b].getD q.2 []).getD q.1 ""))).idx p.1 =
      .ok (.vstr (([a, b].getD p.2 []).getD p.1 "")) := by
    show Except.ok ((((messageBitArrayOf S E m).enum.map (fun q =>
      ([a, b].getD q.2 []).getD q.1 "")).map JSVal.vstr).getD p.1 .vundefined) = _
    rw [getD_map_of_lt JSVal.vstr _ p.1 .vundefined ""
      (by rw [List.length_map, List.enum_length, messageBitArrayOf_length S E m hdig]
          exact hlt256),
      hsgetD]
  rw [hsidx, okE_bind]
  have hcases : p.2 = 0 ∨ p.2 = 1 := by omega
  rcases hcases with h2 | h2 <;> rw [h2]
  · have hpk0 : (keyVal (pubOfPriv S E [a, b])).idx 0 =
        .ok (sigVal (a.map (fun s => S.hashF E (.vstr s) (some S.hashEncoding)))) := rfl
    rw [hpk0, okE_bind]
    have htgt : (sigVal (a.map (fun s =>
        S.hashF E (.vstr s) (some S.hashEncoding)))).idx p.1 =
        .ok (.vstr (S.hashF E (.vstr (a.getD p.1 "")) (some S.hashEncoding))) := by
      show Except.ok (((a.map (fun s => S.hashF E (.vstr s) (some S.hashEncoding))).map
        JSVal.vstr).getD p.1 .vundefined) = _
      rw [getD_map_of_lt JSVal.vstr _ p.1 .vundefined ""
        (by rw [List.length_map, ha]; exact hlt256)]
      rw [getD_map_of_lt _ a p.1 "" "" (by rw [ha]; exact hlt256)]
    rw [htgt, ok_map]
    show Except.ok ((S.hashF E (JSVal.vstr (a.getD p.1 "")) (some S.hashEncoding) ==
      S.hashF E (JSVal.vstr (a.getD p.1 "")) (some S.hashEncoding) : Bool)) = Except.ok true
    rw [beq_self_eq_true]
  · have hpk1 : (keyVal (pubOfPriv S E [a, b])).idx 1 =
        .ok (sigVal (b.map (fun s => S.hashF E (.vstr s) (some S.hashEncoding)))) := rfl
    rw [hpk1, okE_bind]
    have htgt : (sigVal (b.map (fun s =>
        S.hashF E (.vstr s) (some S.hashEncoding)))).idx p.1 =
        .ok (.vstr (S.hashF E (.vstr (b.getD p.1 "")) (some S.hashEncoding))) := by
      show Except.ok (((b.map (fun s => S.hashF E (.vstr s) (some S.hashEncoding))).map
        JSVal.vstr).getD p.1 .vundefined) = _
      rw [getD_map_of_lt JSVal.vstr _ p.1 .vundefined ""
        (by rw [List.length_map, hb]; exact hlt256)]
      rw [getD_map_of_lt _ b p.1 "" "" (by rw [hb]; exact hlt256)]
    rw [htgt, ok_map]
    show Except.ok ((S.hashF E (JSVal.vstr (b.getD p.1 "")) (some S.hashEncoding) ==
      S.hashF E (JSVal.vstr (b.getD p.1 "")) (some S.hashEncoding) : Bool)) = Except.ok true
    rw [beq_self_eq_true]

/-- Witness for verify_sign_roundtrip: on concrete configuration, externals
and seed, signing the concrete message with the generated private key and
verifying against the generated public key yields true. -/
theorem verify_sign_roundtrip_witness :
    (sign Sobj Ew mW kpW.privateKey).bind
      (fun sig => verify Sobj Ew mW sig kpW.publicKey) = .ok true :=
  verify_sign_roundtrip Sobj Ew mW privW kpW
    (Or.inl ⟨"s", none, rfl, rfl⟩) rfl rfl (by decide)
    (fun w h => by
      rw [encodeSignature, if_pos (show Sobj.signatureFormat = "object" from rfl)] at h
      rw [decodeSignature, if_pos (show Sobj.signatureFormat = "object" from rfl)]
      exact h.symm)

/-- C2: for every message and well-formed structured private key (two sides
of 256 blocks, presented in the structured pass-through format), sign
produces a signature of exactly 256 blocks with signature[i] =
privateKey[bit i][i], where bit i is the i-th bit of the 256-bit message
digest, most significant bit first within each byte. -/
theorem sign_selects_digest_bits (S : Settings) (E : Ext) (m : JSVal)
    (a b : List String)
    (hK : S.keyFormat = "object") (hSf : S.signatureFormat = "object")
    (ha : a.length = 256) (hb : b.length = 256)
    (hdig : (messageDigestBytes S E m).length = 32) :
    sign S E m (keyVal [a, b]) =
      .ok (.varr ((List.range 256).map (fun i =>
        JSVal.vstr (([a, b].getD (bitOfDigest S E m i) []).getD i "")))) := by
  have hblen : (messageBitArrayOf S E m).length = 256 :=
    messageBitArrayOf_length S E m hdig
  have hmap := mapM_bits_structured S E m a b ha hb hdig
  have hlist : (messageBitArrayOf S E m).enum.map (fun p =>
      JSVal.vstr (([a, b].getD p.2 []).getD p.1 "")) =
    (List.range 256).map (fun i =>
      JSVal.vstr (([a, b].getD (bitOfDigest S E m i) []).getD i "")) := by
    apply List.ext_getElem?
    intro i
    by_cases hi : i < 256
    · have hbit : (messageBitArrayOf S E m)[i]? = some (bitOfDigest S E m i) := by
        show (((messageDigestBytes S E m).map jsBits).flatten)[i]? = _
        rw [bitArray_getElem? (messageDigestBytes S E m) i (by rw [hdig]; omega)]
        rfl
      rw [List.getElem?_map, List.getElem?_enum, hbit, List.getElem?_map,
        List.getElem?_range hi]
      rfl
    · have h1 : ((messageBitArrayOf S E m).enum.map (fun p =>
          JSVal.vstr (([a, b].getD p.2 []).getD p.1 ""))).length ≤ i := by
        rw [List.length_map, List.enum_length, hblen]
        omega
      have h2 : ((List.range 256).map (fun i =>
          JSVal.vstr (([a, b].getD (bitOfDigest S E m i) []).getD i ""))).length ≤ i := by
        rw [List.length_map, List.length_range]
        omega
      rw [List.getElem?_eq_none h1, List.getElem?_eq_none h2]
  unfold sign
  rw [decodeKey, if_pos hK, ok_bind]
  show ((messageBitArrayOf S E m).enum.mapM (fun p =>
      ((keyVal [a, b]).idx p.2).bind (fun side => side.idx p.1)) >>=
      (fun signature => encodeSignature S E (JSVal.varr signature))) = _
  rw [hmap, ok_bind, hlist, encodeSignature, if_pos hSf]

/-- Witness for sign_selects_digest_bits on a concrete configuration,
message and structured key. -/
theorem sign_selects_digest_bits_witness :
    sign Sobj Ew (.vstr "0123456789abcdef0123456789abcdef")
        (keyVal [List.replicate 256 "p", List.replicate 256 "q"]) =
      .ok (.varr ((List.range 256).map (fun i =>
        JSVal.vstr (([List.replicate 256 "p", List.replicate 256 "q"].getD
          (bitOfDigest Sobj Ew (.vstr "0123456789abcdef0123456789abcdef") i) []).getD i "")))) :=
  sign_selects_digest_bits Sobj Ew (.vstr "0123456789abcdef0123456789abcdef")
    (List.replicate 256 "p") (List.replicate 256 "q") rfl rfl
    (List.length_replicate 256 "p") (List.length_replicate 256 "q") (by decide)

/-- C6: immediately after generateKeys or generateKeysFromSeed, the returned
key pair is the encoding of raw keys satisfying the public-key invariant:
publicKey[side][i] = Hash(privateKey[side][i]) for each of the two sides and
every position below 256, where Hash is the configured hash applied with the
configured hashEncoding. -/
theorem public_key_invariant (S : Settings) (E : Ext) (seed : String)
    (idxOpt : Option Int) (rand : Nat → Nat → List Nat) (side i : Nat)
    (hside : side < 2) (hi : i < 256) :
    generateKeysFromSeed S E seed idxOpt =
      (encodeKey S E (keyVal (rawPrivFromSeed S E seed (idxOpt.getD 0)))).bind (fun pk =>
        (encodeKey S E (keyVal (pubOfPriv S E (rawPrivFromSeed S E seed (idxOpt.getD 0))))).map
          (fun pb => ⟨pk, pb⟩)) ∧
    generateKeys S E rand =
      (encodeKey S E (keyVal (rawPrivRandom S E rand))).bind (fun pk =>
        (encodeKey S E (keyVal (pubOfPriv S E (rawPrivRandom S E rand)))).map
          (fun pb => ⟨pk, pb⟩)) ∧
    ((pubOfPriv S E (rawPrivFromSeed S E seed (idxOpt.getD 0))).getD side []).getD i "" =
      S.hashF E (.vstr (((rawPrivFromSeed S E seed (idxOpt.getD 0)).getD side []).getD i ""))
        (some S.hashEncoding) ∧
    ((pubOfPriv S E (rawPrivRandom S E rand)).getD side []).getD i "" =
      S.hashF E (.vstr (((rawPrivRandom S E rand).getD side []).getD i ""))
        (some S.hashEncoding) := by
  refine ⟨rfl, rfl, ?_, ?_⟩
  · apply pubOfPriv_getD
    · exact hside
    · interval_cases side
      · show i < (generateRandomArrayFromSeed S E KEY_SIG_ENTRY_COUNT _).length
        rw [generateRandomArrayFromSeed_length]
        exact hi
      · show i < (generateRandomArrayFromSeed S E KEY_SIG_ENTRY_COUNT _).length
        rw [generateRandomArrayFromSeed_length]
        exact hi
  · apply pubOfPriv_getD
    · exact hside
    · interval_cases side
      · show i < (generateRandomArray S E rand 0 KEY_SIG_ENTRY_COUNT _).length
        rw [generateRandomArray_length]
        exact hi
      · show i < (generateRandomArray S E rand KEY_SIG_ENTRY_COUNT KEY_SIG_ENTRY_COUNT _).length
        rw [generateRandomArray_length]
        exact hi

/-- Witness for public_key_invariant at side 0, position 0, on concrete
configuration, externals, seed and random stream. -/
theorem public_key_invariant_witness :
    generateKeysFromSeed Sobj Ew "s" none =
      (encodeKey Sobj Ew (keyVal (rawPrivFromSeed Sobj Ew "s" ((none : Option Int).getD 0)))).bind
        (fun pk =>
          (encodeKey Sobj Ew (keyVal (pubOfPriv Sobj Ew
            (rawPrivFromSeed Sobj Ew "s" ((none : Option Int).getD 0))))).map
            (fun pb => ⟨pk, pb⟩)) ∧
    generateKeys Sobj Ew (fun _ _ => []) =
      (encodeKey Sobj Ew (keyVal (rawPrivRandom Sobj Ew (fun _ _ => [])))).bind (fun pk =>
        (encodeKey Sobj Ew (keyVal (pubOfPriv Sobj Ew
          (rawPrivRandom Sobj Ew (fun _ _ => []))))).map
          (fun pb => ⟨pk, pb⟩)) ∧
    ((pubOfPriv Sobj Ew (rawPrivFromSeed Sobj Ew "s" ((none : Option Int).getD 0))).getD 0 []).getD 0 "" =
      Sobj.hashF Ew
        (.vstr (((rawPrivFromSeed Sobj Ew "s" ((none : Option Int).getD 0)).getD 0 []).getD 0 ""))
        (some Sobj.hashEncoding) ∧
    ((pubOfPriv Sobj Ew (rawPrivRandom Sobj Ew (fun _ _ => []))).getD 0 []).getD 0 "" =
      Sobj.hashF Ew (.vstr (((rawPrivRandom Sobj Ew (fun _ _ => [])).getD 0 []).getD 0 ""))
        (some Sobj.hashEncoding) :=
  public_key_invariant Sobj Ew "s" none (fun _ _ => []) 0 0 (by decide) (by decide)

/-- Witness for message_digest_uses_builtin_sha256 at concrete inputs. -/
theorem message_digest_uses_builtin_sha256_witness :
    sign { Sobj with hashFn := none } Ew (.vstr "m") (.varr []) =
      sign { Sobj with hashFn := none } Ew (.vstr "m") (.varr []) ∧
    messageBitArrayOf { Sobj with hashFn := none } Ew (.vstr "m") =
      messageBitArrayOf Sobj Ew (.vstr "m") ∧
    messageBitArrayOf Sobj Ew (.vstr "m") =
      convertEncodedStringToBitArray Sobj Ew (sha256 Ew (.vstr "m") (some Sobj.hashEncoding)) ∧
    verify { Sobj with hashFn := none } Ew (.vstr "m") .vnull .vnull =
      verify { Sobj with hashFn := none } Ew (.vstr "m") .vnull .vnull :=
  message_digest_uses_builtin_sha256 Sobj Ew none none none none (.vstr "m") (.varr [])
    .vnull .vnull (fun _ => rfl)

end SimpleLamport
